import Mathlib

/-!
Verification of the restaurant-management system's order-lifecycle and
bill-consistency core against its natural-language specification.

The Python services are shallowly embedded: document collections become
lists of records, MongoDB `find_one` / `update_one` / `delete_one` become
first-match list operations, outbound HTTP collaborators (order store,
menu catalog) become an explicit environment, monetary amounts become
rationals, and `HTTPException`s become explicit error codes.
-/

namespace Restaurant

/-! ## Generic list/store helpers (MongoDB single-document operations) -/

/-- Mongo `update_one`: apply `f` to the first element satisfying `p`. -/
def updateFirst (p : α → Bool) (f : α → α) : List α → List α
  | [] => []
  | x :: xs => if p x then f x :: xs else x :: updateFirst p f xs

/-- Mongo `delete_one`: remove the first element satisfying `p`. -/
def removeFirst (p : α → Bool) : List α → List α
  | [] => []
  | x :: xs => if p x then xs else x :: removeFirst p xs

theorem find?_updateFirst_self (p : α → Bool) (f : α → α) (l : List α) (b : α)
    (hfind : l.find? p = some b) (hp : p (f b) = true) :
    (updateFirst p f l).find? p = some (f b) := by
  induction l with
  | nil => simp at hfind
  | cons x xs ih =>
    by_cases hx : p x
    · simp [List.find?, hx] at hfind
      subst hfind
      simp [updateFirst, hx, List.find?, hp]
    · simp [List.find?, hx] at hfind
      have := ih hfind
      simp [updateFirst, hx, List.find?, this]

theorem filter_updateFirst (p : α → Bool) (f : α → α) (q : α → Bool) (l : List α)
    (h : ∀ x, p x = true → (q x = false ∧ q (f x) = false)) :
    (updateFirst p f l).filter q = l.filter q := by
  induction l with
  | nil => rfl
  | cons x xs ih =>
    by_cases hx : p x
    · have hq := h x hx
      simp [updateFirst, hx, List.filter, hq.1, hq.2]
    · simp [updateFirst, hx, List.filter]
      cases q x <;> simp [ih]

/-! ## Order Service (src/SOA/order-service/backend/services.py) -/

/-- Order statuses (`OrderStatus` in order-service models.py). -/
inductive OrderStatus
  | received
  | inProgress
  | paused
  | ready
  | delivered
  | completed
  | cancelled
deriving DecidableEq, Repr, Fintype

/-- Source `OrderService.VALID_STATUS_TRANSITIONS` (services.py lines 19-29), listed
in the source's order. -/
def VALID_STATUS_TRANSITIONS : OrderStatus → List OrderStatus
  | .received => [.inProgress, .received, .cancelled]
  | .inProgress => [.ready, .inProgress, .paused, .cancelled]
  | .paused => [.inProgress, .paused, .cancelled]
  | .ready => [.delivered, .ready, .cancelled]
  | .delivered => [.completed, .delivered, .cancelled]
  | .completed => [.completed]
  | .cancelled => [.cancelled]

/-- Source `OrderService._is_valid_status_transition` (services.py lines 316-334):
cancellation is allowed from any non-completed state; otherwise the target
must be in the transition table for the current status. -/
def isValidStatusTransition (current new : OrderStatus) : Bool :=
  if new == .cancelled && current != .completed then true
  else (VALID_STATUS_TRANSITIONS current).contains new

/-- An order document as far as the status-lifecycle operations touch it
(order_id, table_id, status; items and timestamps are not read or written
by status updates, cancellation or deletion). -/
structure OrderRecord where
  order_id : String
  table_id : String
  status : OrderStatus
deriving DecidableEq, Repr

/-- The `orders` collection. -/
abbrev OrderStore := List OrderRecord

/-- Errors surfaced by the order operations: `None` returns for a missing
order; `ValueError` for an invalid transition; the `ValueError` raised by
`cancel_order` on a completed order. -/
inductive OrderErr
  | notFound
  | invalidTransition
  | cancelCompleted
deriving DecidableEq, Repr

/-- Source `OrderService.update_order_status` (services.py lines 260-314): validate
the transition against `_is_valid_status_transition`, then write the new
status and return the re-fetched order.  The store is returned alongside the
outcome; every error path leaves it unchanged. -/
def update_order_status (store : OrderStore) (order_id : String) (new : OrderStatus) :
    OrderStore × Except OrderErr OrderRecord :=
  match store.find? (·.order_id == order_id) with
  | none => (store, .error .notFound)
  | some existing =>
    if isValidStatusTransition existing.status new then
      let store' := updateFirst (·.order_id == order_id) (fun o => { o with status := new }) store
      match store'.find? (·.order_id == order_id) with
      | some updated => (store', .ok updated)
      | none => (store', .error .notFound)
    else (store, .error .invalidTransition)

/-- Source `OrderService.cancel_order` (services.py lines 431-471): an already
cancelled order is returned unchanged; a completed order raises; otherwise
the status is updated to `cancelled` via `update_order_status`. -/
def cancel_order (store : OrderStore) (order_id : String) :
    OrderStore × Except OrderErr OrderRecord :=
  match store.find? (·.order_id == order_id) with
  | none => (store, .error .notFound)
  | some existing =>
    if existing.status == .cancelled then (store, .ok existing)
    else if existing.status == .completed then (store, .error .cancelCompleted)
    else update_order_status store order_id .cancelled

/-- Source `OrderService.delete_order` (services.py lines 382-405): fetch the order;
if present, delete it.  The source applies no status check before deleting. -/
def delete_order (store : OrderStore) (order_id : String) : Bool × OrderStore :=
  match store.find? (·.order_id == order_id) with
  | none => (false, store)
  | some _ => (true, removeFirst (·.order_id == order_id) store)

/-- The order-status transition graph exactly as spec section 4.1 writes it
(self-loops allowed for the five non-terminal states; `completed` and
`cancelled` terminal with no outgoing edges).  This definition follows the
spec's words and exists only to be compared against the source's
`VALID_STATUS_TRANSITIONS`. -/
def specTransitionGraph : OrderStatus → List OrderStatus
  | .received => [.inProgress, .cancelled, .received]
  | .inProgress => [.ready, .paused, .cancelled, .inProgress]
  | .paused => [.inProgress, .cancelled, .paused]
  | .ready => [.delivered, .cancelled, .ready]
  | .delivered => [.completed, .cancelled, .delivered]
  | .completed => []
  | .cancelled => []

theorem isValid_false_of_not_spec_edge :
    ∀ A B : OrderStatus, B ≠ .cancelled → B ∉ specTransitionGraph A →
      ¬(A = .completed ∧ B = .completed) → isValidStatusTransition A B = false := by
  decide

/-- C2 counterexample: the source's transition table contains
`completed → completed` (`COMPLETED: {COMPLETED}`), which spec section 4.1
omits (`completed` has no outgoing transitions), so the status-update
operation accepts a pair the claim says it must reject: updating a completed
order to `completed` succeeds and is not an invalid-transition error. -/
theorem update_order_status_accepts_completed_self_loop :
    (OrderStatus.completed ∉ specTransitionGraph .completed) ∧
    OrderStatus.completed ≠ .cancelled ∧
    (update_order_status [⟨"o1", "T1", .completed⟩] "o1" .completed).2 =
      .ok ⟨"o1", "T1", .completed⟩ := by
  refine ⟨by decide, by decide, ?_⟩
  rfl

/-- C2 (amended): for every pair (A, B) with B ≠ `cancelled`, A → B not an
edge of the spec section 4.1 graph, and (A, B) ≠ (`completed`, `completed`)
(the one self-loop the source additionally allows), the status-update
operation rejects the change with an invalid-transition error and returns
the store unchanged. -/
theorem update_order_status_rejects_non_graph_transition
    (store : OrderStore) (order_id : String) (o : OrderRecord) (B : OrderStatus)
    (hfind : store.find? (·.order_id == order_id) = some o)
    (hB : B ≠ .cancelled)
    (hedge : B ∉ specTransitionGraph o.status)
    (hcc : ¬(o.status = .completed ∧ B = .completed)) :
    update_order_status store order_id B = (store, .error .invalidTransition) := by
  have hvalid : isValidStatusTransition o.status B = false :=
    isValid_false_of_not_spec_edge o.status B hB hedge hcc
  simp [update_order_status, hfind, hvalid]

/-- C2 witness: a `received` order cannot be updated straight to `completed`. -/
theorem update_order_status_rejects_witness :
    update_order_status [⟨"o1", "T1", .received⟩] "o1" .completed =
      ([⟨"o1", "T1", .received⟩], .error .invalidTransition) :=
  update_order_status_rejects_non_graph_transition _ _ ⟨"o1", "T1", .received⟩ _
    (by decide) (by decide) (by decide) (by decide)

/-- C5: cancelling any order whose status is not `completed` succeeds, the
resulting status is `cancelled`, and cancelling again on the resulting store
succeeds with no error, returning the same terminal state and leaving the
store unchanged (idempotence). -/
theorem cancel_order_noncompleted_idempotent
    (store : OrderStore) (order_id : String) (o : OrderRecord)
    (hfind : store.find? (·.order_id == order_id) = some o)
    (hnc : o.status ≠ .completed) :
    ∃ o', (cancel_order store order_id).2 = .ok o' ∧ o'.status = .cancelled ∧
      cancel_order (cancel_order store order_id).1 order_id =
        ((cancel_order store order_id).1, .ok o') := by
  have hp : (o.order_id == order_id) = true := by
    simpa using List.find?_some hfind
  by_cases hcanc : o.status = .cancelled
  · refine ⟨o, ?_, hcanc, ?_⟩ <;> simp [cancel_order, hfind, hcanc]
  · have hvalid : isValidStatusTransition o.status .cancelled = true := by
      simp [isValidStatusTransition, hnc]
    have hfind' :
        (updateFirst (·.order_id == order_id) (fun x => { x with status := .cancelled })
            store).find? (·.order_id == order_id) = some { o with status := .cancelled } :=
      find?_updateFirst_self _ _ _ _ hfind hp
    refine ⟨{ o with status := .cancelled }, ?_, rfl, ?_⟩
    · simp [cancel_order, hfind, hcanc, hnc, update_order_status, hvalid, hfind']
    · have hres : cancel_order store order_id =
          (updateFirst (·.order_id == order_id) (fun x => { x with status := .cancelled }) store,
            .ok { o with status := .cancelled }) := by
        simp [cancel_order, hfind, hcanc, hnc, update_order_status, hvalid, hfind']
      rw [hres]
      simp [cancel_order, hfind']

/-- C5 witness: cancelling an `in-progress` order twice. -/
theorem cancel_order_noncompleted_witness :
    ∃ o', (cancel_order [⟨"o1", "T1", .inProgress⟩] "o1").2 = .ok o' ∧
      o'.status = .cancelled ∧
      cancel_order (cancel_order [⟨"o1", "T1", .inProgress⟩] "o1").1 "o1" =
        ((cancel_order [⟨"o1", "T1", .inProgress⟩] "o1").1, .ok o') :=
  cancel_order_noncompleted_idempotent _ _ ⟨"o1", "T1", .inProgress⟩ (by decide) (by decide)

/-- C9 (code bug): the source's `delete_order` applies no status guard: an
existing order is deleted whatever its status.  Here a `completed` order is
deleted successfully, contradicting the delete-only-while-received rule that
the route's own docstring and error message state. -/
theorem delete_order_deletes_completed_order :
    delete_order [⟨"o9", "T2", .completed⟩] "o9" = (true, []) := by
  rfl

/-! ## Service-Health Tracker
(src/SOA/table-bill-service/backend/services/integration.py) -/

/-- Per-collaborator entry of `ServiceIntegration._service_health`.
`time.time()` values are modelled as rationals. -/
structure ServiceHealth where
  available : Bool
  last_check : ℚ
  failure_count : ℕ
deriving DecidableEq, Repr

/-- Source `ServiceIntegration.HEALTH_CHECK_INTERVAL` (seconds). -/
def HEALTH_CHECK_INTERVAL : ℚ := 30

/-- Source `ServiceIntegration.MAX_FAILURES`. -/
def MAX_FAILURES : ℕ := 3

/-- One collaborator's update inside `ServiceIntegration.check_service_health`
(integration.py lines 32-87): throttled to one probe per 30 seconds; a probe
returning HTTP 200 (`probe_success`) marks the service available and zeroes
the failure count; any other outcome increments the failure count and marks
the service unavailable once the count reaches `MAX_FAILURES`; `last_check`
is stamped whenever a probe was attempted. -/
def check_service_health (st : ServiceHealth) (now : ℚ) (probe_success : Bool) :
    ServiceHealth :=
  if now - st.last_check > HEALTH_CHECK_INTERVAL then
    if probe_success then
      { available := true, failure_count := 0, last_check := now }
    else
      let fc := st.failure_count + 1
      { available := if fc ≥ MAX_FAILURES then false else st.available,
        failure_count := fc, last_check := now }
  else st

/-- Source `ServiceIntegration.is_service_available` (integration.py lines 89-104):
an unavailable service last checked more than 60 seconds ago is optimistically
reset to available with a zero failure count; the (possibly reset)
availability flag is returned together with the updated entry. -/
def is_service_available (st : ServiceHealth) (now : ℚ) : Bool × ServiceHealth :=
  if !st.available && decide (now - st.last_check > 60) then
    (true, { st with available := true, failure_count := 0 })
  else (st.available, st)

/-- C7: for a tracked collaborator, (a) a successful (non-throttled) probe
resets the failure count to 0 and marks it available; (b) a failed probe
increments the failure count and — starting from an available entry, whose
count the tracker keeps below 3 — the collaborator becomes unavailable
exactly when the count reaches 3; (c) once unavailable with no check for
more than 60 seconds, the next availability query reports it available and
resets the entry to available with failure count 0. -/
theorem health_tracker_threshold_and_recovery (st : ServiceHealth) (now : ℚ) :
    (now - st.last_check > HEALTH_CHECK_INTERVAL →
      (check_service_health st now true).available = true ∧
      (check_service_health st now true).failure_count = 0) ∧
    (now - st.last_check > HEALTH_CHECK_INTERVAL →
      (check_service_health st now false).failure_count = st.failure_count + 1 ∧
      (st.available = true → st.failure_count < MAX_FAILURES →
        ((check_service_health st now false).available = false ↔
          st.failure_count + 1 = MAX_FAILURES))) ∧
    (st.available = false → now - st.last_check > 60 →
      is_service_available st now =
        (true, { st with available := true, failure_count := 0 })) := by
  refine ⟨fun h30 => ?_, fun h30 => ?_, fun hun h60 => ?_⟩
  · simp [check_service_health, h30]
  · refine ⟨by simp [check_service_health, h30], fun hav hlt => ?_⟩
    simp only [check_service_health, if_pos h30, if_neg (Bool.false_ne_true ∘ id)]
    by_cases hc : st.failure_count + 1 ≥ MAX_FAILURES
    · simp [hc, Nat.le_antisymm hc hlt]
    · have : st.failure_count + 1 ≠ MAX_FAILURES := fun he => hc (le_of_eq he.symm)
      simp [hc, hav, this]
  · simp [is_service_available, hun, h60]

/-- C7 witness: the three conjuncts evaluated at concrete tracker entries:
a successful probe at failure count 2, a failed probe at failure count 2
(reaching the threshold of 3), and the 60-second optimistic reset. -/
theorem health_tracker_witness :
    ((check_service_health ⟨true, 0, 2⟩ 31 true).available = true ∧
      (check_service_health ⟨true, 0, 2⟩ 31 true).failure_count = 0) ∧
    ((check_service_health ⟨true, 0, 2⟩ 31 false).failure_count = 3 ∧
      (check_service_health ⟨true, 0, 2⟩ 31 false).available = false) ∧
    is_service_available ⟨false, 0, 3⟩ 61 = (true, ⟨true, 0, 0⟩) := by
  have h1 := (health_tracker_threshold_and_recovery ⟨true, 0, 2⟩ 31).1
    (by norm_num [HEALTH_CHECK_INTERVAL])
  have h2 := (health_tracker_threshold_and_recovery ⟨true, 0, 2⟩ 31).2.1
    (by norm_num [HEALTH_CHECK_INTERVAL])
  have h3 := (health_tracker_threshold_and_recovery ⟨false, 0, 3⟩ 61).2.2 rfl (by norm_num)
  exact ⟨h1, ⟨h2.1, (h2.2 rfl (by decide)).mpr (by decide)⟩, h3⟩

/-! ## Table & Bill Service data model
(src/SOA/table-bill-service/backend) -/

/-- A billed line item (bills.py `bill_items` entries): catalog id, display
name, unit price snapshot, quantity. -/
structure BillItem where
  item_id : String
  name : String
  price : ℚ
  quantity : ℕ
deriving DecidableEq, Repr

/-- A bill document in the `bills` collection.  Timestamps are omitted: no
claimed behaviour reads them. -/
structure BillDoc where
  bill_id : String
  table_id : String
  order_id : String
  status : String
  payment_status : String
  items : List BillItem
  total_amount : ℚ
deriving DecidableEq, Repr

/-- The `bills` collection. -/
abbrev BillStore := List BillDoc

/-- A table document in the `tables` collection. -/
structure TableDoc where
  table_id : String
  table_number : ℕ
  status : String
deriving DecidableEq, Repr

/-- The `tables` collection. -/
abbrev TableStore := List TableDoc

/-- A line item of an order snapshot as served by the Order Service API;
the unit price captured at order time is optional. -/
structure OrderSnapshotItem where
  item_id : String
  name : String
  quantity : ℕ
  price : Option ℚ
deriving DecidableEq, Repr

/-- An order snapshot as served by `GET /api/orders/id`. -/
structure OrderSnapshot where
  table_id : String
  status : String
  items : List OrderSnapshotItem
deriving DecidableEq, Repr

/-- Observable outcome of `ServiceIntegration.fetch_order_details`
(integration.py lines 106-209): HTTP 200 with the snapshot (`found`),
HTTP 404 raised as an `HTTPException` (`notFound`), or an empty dict for
unavailability / timeout / server error (`unavailable`). -/
inductive OrderFetch
  | found (o : OrderSnapshot)
  | notFound
  | unavailable
deriving DecidableEq, Repr

/-- A catalog item as served by the Menu Service (`GET /api/menu-items/id`). -/
structure MenuItem where
  name : String
  price : ℚ
deriving DecidableEq, Repr

/-- The collaborator environment seen through `ServiceIntegration`.
`menu i = some m` models `fetch_menu_item_details` returning `(m, True)`;
`none` models `({}, False)` (404, unavailability, network failure). -/
structure Env where
  orders : String → OrderFetch
  menu : String → Option MenuItem

/-- Source `ServiceIntegration.fetch_order_details` including its empty-order-id
guard (integration.py lines 120-122: an empty id returns an empty dict). -/
def fetchOrderDetails (env : Env) (order_id : String) : OrderFetch :=
  if order_id = "" then .unavailable else env.orders order_id

/-- Source `ServiceIntegration.fetch_menu_item_details` including its empty-item-id
guard (integration.py lines 226-228). -/
def fetchMenuItemDetails (env : Env) (item_id : String) : Option MenuItem :=
  if item_id = "" then none else env.menu item_id

/-- Source `ACTIVE_BILL_STATUSES` (bills.py line 22). -/
def ACTIVE_BILL_STATUSES : List String := ["open", "final"]

/-- Source `TableService.update_table_status` (tables.py lines 84-106): only
`available` and `occupied` are accepted (HTTP 400 otherwise); the table must
exist (HTTP 404); the first matching document's status is updated. -/
def update_table_status (tables : TableStore) (table_id status : String) :
    Except ℕ TableStore :=
  if status = "available" ∨ status = "occupied" then
    match tables.find? (·.table_id == table_id) with
    | none => .error 404
    | some _ => .ok (updateFirst (·.table_id == table_id)
        (fun t => { t with status := status }) tables)
  else .error 400

/-! ## Bill Generator (bills.py `BillService.create_bill_from_order`) -/

/-- Source `BillService.create_bill_from_order` (bills.py lines 168-318).  Steps: an
existing bill for the order is returned unchanged; the order snapshot is
fetched (404 when absent or when the fetch returned an empty dict, since
`if not order_data` raises 404 too); the order must be `completed` and have
items and a table reference (400 otherwise); bill items and total are
computed; the table is marked occupied best-effort (failures ignored); the
bill is inserted with the deterministic id `bill-` + order id and read back.

Price note: the source binds `menu_item, is_fallback =
fetch_menu_item_details(...)`, naming the SUCCESS flag `is_fallback`, so
`menu_item.get("price", item.get("price", 0)) if not is_fallback else
item.get("price", 0)` yields the order item's recorded price (default 0) on
both branches — on success the else-branch is taken, and on failure
`menu_item` is empty so `.get` falls through to the same default.  The
fetched catalog price is never used on this path. -/
def create_bill_from_order (env : Env) (bills : BillStore) (tables : TableStore)
    (order_id : String) : Except ℕ BillDoc × BillStore × TableStore :=
  match bills.find? (·.order_id == order_id) with
  | some existing => (.ok existing, bills, tables)
  | none =>
    match fetchOrderDetails env order_id with
    | .notFound => (.error 404, bills, tables)
    | .unavailable => (.error 404, bills, tables)
    | .found od =>
      if od.status ≠ "completed" then (.error 400, bills, tables)
      else if od.items = [] ∨ od.table_id = "" then (.error 400, bills, tables)
      else
        let bill_items := od.items.map (fun it =>
          ({ item_id := it.item_id, name := it.name,
             price := it.price.getD 0, quantity := it.quantity } : BillItem))
        let total_amount := (bill_items.map (fun it => it.price * (it.quantity : ℚ))).sum
        let bill_id := "bill-" ++ order_id
        let new_bill : BillDoc :=
          { bill_id := bill_id, table_id := od.table_id, order_id := order_id,
            status := "final", payment_status := "pending",
            items := bill_items, total_amount := total_amount }
        let tables' := match update_table_status tables od.table_id "occupied" with
          | .ok ts => ts
          | .error _ => tables
        let bills' := bills ++ [new_bill]
        match bills'.find? (·.bill_id == bill_id) with
        | some created => (.ok created, bills', tables')
        | none => (.error 500, bills', tables')

/-- C3: creating a bill twice from the same completed order (nonempty items
and table reference, no bill yet stored for that order or under its derived
id) returns the identical bill both times, the bill id is derived
deterministically from the order id, and exactly one bill referencing the
order is stored afterwards. -/
theorem create_bill_from_order_idempotent
    (env : Env) (bills : BillStore) (tables : TableStore) (order_id : String)
    (od : OrderSnapshot)
    (hfetch : fetchOrderDetails env order_id = .found od)
    (hstatus : od.status = "completed")
    (hitems : od.items ≠ [])
    (htable : od.table_id ≠ "")
    (hnobill : bills.find? (·.order_id == order_id) = none)
    (hnoid : bills.find? (·.bill_id == ("bill-" ++ order_id)) = none) :
    ∃ b bills₁ tables₁,
      create_bill_from_order env bills tables order_id = (.ok b, bills₁, tables₁) ∧
      b.bill_id = "bill-" ++ order_id ∧
      create_bill_from_order env bills₁ tables₁ order_id = (.ok b, bills₁, tables₁) ∧
      (bills₁.filter (·.order_id == order_id)).length = 1 := by
  classical
  set bill_items := od.items.map (fun it =>
    ({ item_id := it.item_id, name := it.name,
       price := it.price.getD 0, quantity := it.quantity } : BillItem)) with hbi
  set new_bill : BillDoc :=
    { bill_id := "bill-" ++ order_id, table_id := od.table_id, order_id := order_id,
      status := "final", payment_status := "pending",
      items := bill_items,
      total_amount := (bill_items.map (fun it => it.price * (it.quantity : ℚ))).sum } with hnb
  set tables₁ := (match update_table_status tables od.table_id "occupied" with
    | .ok ts => ts
    | .error _ => tables) with htb
  have hfound : (bills ++ [new_bill]).find? (·.bill_id == ("bill-" ++ order_id)) =
      some new_bill := by
    rw [List.find?_append, hnoid]
    simp [hnb]
  have hfound2 : (bills ++ [new_bill]).find? (·.order_id == order_id) = some new_bill := by
    rw [List.find?_append, hnobill]
    simp [hnb]
  refine ⟨new_bill, bills ++ [new_bill], tables₁, ?_, rfl, ?_, ?_⟩
  · simp only [create_bill_from_order, hnobill, hfetch]
    simp only [hstatus, hitems, htable]
    simp only [← hbi, ← hnb, ← htb, hfound]
    simp [hstatus]
  · simp [create_bill_from_order, hfound2]
  · rw [List.filter_append]
    have h1 : bills.filter (·.order_id == order_id) = [] := by
      rw [List.filter_eq_nil_iff]
      intro a ha
      have := List.find?_eq_none.mp hnobill a ha
      simpa using this
    simp [h1, hnb]

/-- C4: creating a bill from an order whose status is not `completed` (no
bill yet existing for it) fails with a client/precondition error (HTTP 400)
and leaves the bill store (and table store) unchanged. -/
theorem create_bill_from_order_noncompleted_rejected
    (env : Env) (bills : BillStore) (tables : TableStore) (order_id : String)
    (od : OrderSnapshot)
    (hfetch : fetchOrderDetails env order_id = .found od)
    (hstatus : od.status ≠ "completed")
    (hnobill : bills.find? (·.order_id == order_id) = none) :
    create_bill_from_order env bills tables order_id = (.error 400, bills, tables) := by
  simp [create_bill_from_order, hnobill, hfetch, hstatus]

/-- A completed one-item order snapshot used by concrete scenarios. -/
def sampleCompletedOrder : OrderSnapshot :=
  ⟨"T3", "completed", [⟨"m1", "Pasta", 2, some 50000⟩]⟩

/-- An in-progress order snapshot used by concrete scenarios. -/
def sampleInProgressOrder : OrderSnapshot :=
  ⟨"T3", "in-progress", [⟨"m1", "Pasta", 2, some 50000⟩]⟩

/-- An environment where order `o1` is completed, order `o2` is in progress
and the menu service is unavailable. -/
def sampleEnv : Env :=
  ⟨fun oid =>
    if oid = "o1" then .found sampleCompletedOrder
    else if oid = "o2" then .found sampleInProgressOrder
    else .unavailable,
   fun _ => none⟩

/-- C3 witness: creating the bill for completed order `o1` twice on an empty
bill store. -/
theorem create_bill_from_order_idempotent_witness :
    ∃ b bills₁ tables₁,
      create_bill_from_order sampleEnv [] [⟨"T3", 3, "available"⟩] "o1" =
        (.ok b, bills₁, tables₁) ∧
      b.bill_id = "bill-" ++ "o1" ∧
      create_bill_from_order sampleEnv bills₁ tables₁ "o1" = (.ok b, bills₁, tables₁) ∧
      (bills₁.filter (·.order_id == "o1")).length = 1 :=
  create_bill_from_order_idempotent _ _ _ _ sampleCompletedOrder (by decide)
    (by decide) (by decide) (by decide) (by decide) (by decide)

/-- C4 witness: creating a bill for in-progress order `o2` fails with HTTP
400 and writes nothing. -/
theorem create_bill_from_order_noncompleted_witness :
    create_bill_from_order sampleEnv [] [] "o2" = (.error 400, [], []) :=
  create_bill_from_order_noncompleted_rejected _ _ _ _ sampleInProgressOrder
    (by decide) (by decide) (by decide)

/-! ## Payment status and table release
(bills.py `BillService.update_payment_status`, lines 465-532) -/

/-- Source `BillService.update_payment_status`: fetch the bill (404 when missing);
set `payment_status`, promoting the main `status` to `paid` only when it was
still `open` and the payment status being set is `paid`; then, when the bill
was marked paid (or its resulting status is `closed`/`paid`), count the OTHER
bills on the same table whose status is in `ACTIVE_BILL_STATUSES` (the count
runs after the update, and excludes the current bill by id) and set the table
to `available` only when that count is zero (table update best-effort:
errors ignored). -/
def update_payment_status (bills : BillStore) (tables : TableStore)
    (bill_id payment_status : String) : Except ℕ BillDoc × BillStore × TableStore :=
  match bills.find? (·.bill_id == bill_id) with
  | none => (.error 404, bills, tables)
  | some bill =>
    let status' := if payment_status = "paid" ∧ bill.status = "open" then "paid"
      else bill.status
    let updated : BillDoc := { bill with payment_status := payment_status, status := status' }
    let bills' := updateFirst (·.bill_id == bill_id) (fun _ => updated) bills
    let final_status := status'
    let tables' :=
      if payment_status = "paid" ∨ final_status = "closed" ∨ final_status = "paid" then
        if bill.table_id ≠ "" then
          let active_bill_count := (bills'.filter (fun b =>
            b.table_id == bill.table_id && b.bill_id != bill_id &&
              ACTIVE_BILL_STATUSES.contains b.status)).length
          if active_bill_count = 0 then
            match update_table_status tables bill.table_id "available" with
            | .ok ts => ts
            | .error _ => tables
          else tables
        else tables
      else tables
    (.ok updated, bills', tables')

/-- C10: a payment-status update on an existing bill sets the bill's status
to `paid` exactly when the new payment status is `paid` and the bill's
status was `open`; in every other case the stored status field is left
unchanged (and `payment_status` is always set to the requested value). -/
theorem update_payment_status_promotes_open_only
    (bills : BillStore) (tables : TableStore) (bill_id payment_status : String)
    (bill : BillDoc)
    (hfind : bills.find? (·.bill_id == bill_id) = some bill) :
    ∃ b', (update_payment_status bills tables bill_id payment_status).1 = .ok b' ∧
      ((update_payment_status bills tables bill_id payment_status).2.1).find?
        (·.bill_id == bill_id) = some b' ∧
      b'.payment_status = payment_status ∧
      b'.status = (if payment_status = "paid" ∧ bill.status = "open" then "paid"
        else bill.status) := by
  have hp : (bill.bill_id == bill_id) = true := by
    simpa using List.find?_some hfind
  refine ⟨{ bill with
              payment_status := payment_status,
              status := if payment_status = "paid" ∧ bill.status = "open" then "paid"
                else bill.status },
          ?_, ?_, rfl, rfl⟩
  · simp [update_payment_status, hfind]
  · simp only [update_payment_status, hfind]
    exact find?_updateFirst_self _ _ _ _ hfind hp

/-- C10 witness: paying an `open` bill promotes its status to `paid`. -/
theorem update_payment_status_promotes_witness :
    ∃ b', (update_payment_status [⟨"b1", "T7", "o1", "open", "pending", [], 0⟩] []
        "b1" "paid").1 = .ok b' ∧
      ((update_payment_status [⟨"b1", "T7", "o1", "open", "pending", [], 0⟩] []
        "b1" "paid").2.1).find? (·.bill_id == "b1") = some b' ∧
      b'.payment_status = "paid" ∧
      b'.status = (if "paid" = "paid" ∧ "open" = "open" then "paid" else "open") :=
  update_payment_status_promotes_open_only _ _ _ _
    ⟨"b1", "T7", "o1", "open", "pending", [], 0⟩ (by decide)

theorem active_count_unchanged_by_payment_update
    (bills : BillStore) (bill_id tid : String) (upd : BillDoc)
    (hupd : (upd.bill_id == bill_id) = true) :
    (updateFirst (·.bill_id == bill_id) (fun _ => upd) bills).filter
      (fun b => b.table_id == tid && b.bill_id != bill_id &&
        ACTIVE_BILL_STATUSES.contains b.status) =
    bills.filter (fun b => b.table_id == tid && b.bill_id != bill_id &&
      ACTIVE_BILL_STATUSES.contains b.status) := by
  apply filter_updateFirst
  intro x hx
  have hbe : x.bill_id = bill_id := by simpa using hx
  have hbu : upd.bill_id = bill_id := by simpa using hupd
  constructor
  · simp [hbe]
  · simp [hbu]

/-- C6 counterexample: two bills with status `final` (both in the active set)
on table `T7`.  Paying the first leaves `T7` occupied — as the claim says —
but paying the second ALSO leaves `T7` occupied, because paying a `final`
bill sets only its `payment_status`; its `status` stays `final`, so the
already-paid first bill still counts as an active bill for the table. -/
theorem update_payment_status_second_final_bill_not_released :
    ACTIVE_BILL_STATUSES.contains "final" = true ∧
    (update_payment_status
        [⟨"b1", "T7", "o1", "final", "pending", [], 0⟩,
         ⟨"b2", "T7", "o2", "final", "pending", [], 0⟩]
        [⟨"T7", 7, "occupied"⟩] "b1" "paid").2.2 = [⟨"T7", 7, "occupied"⟩] ∧
    (update_payment_status
        (update_payment_status
          [⟨"b1", "T7", "o1", "final", "pending", [], 0⟩,
           ⟨"b2", "T7", "o2", "final", "pending", [], 0⟩]
          [⟨"T7", 7, "occupied"⟩] "b1" "paid").2.1
        [⟨"T7", 7, "occupied"⟩] "b2" "paid").2.2 = [⟨"T7", 7, "occupied"⟩] := by
  refine ⟨by decide, by decide, by decide⟩

/-- C6 (amended): when `update_payment_status` marks an existing bill `paid`
(nonempty table reference, table present and `occupied`), the table is set
to `available` if and only if zero other bills for that table remain with
status in `ACTIVE_BILL_STATUSES` = {`open`, `final`}.  The claim's two-bill
consequence holds only when paying the first bill removed it from the active
set (its status was `open`, so it was promoted to `paid`); a paid bill whose
status was `final` keeps status `final` and still blocks the release. -/
theorem update_payment_status_release_iff
    (bills : BillStore) (tables : TableStore) (bill_id : String)
    (bill : BillDoc) (t : TableDoc)
    (hfind : bills.find? (·.bill_id == bill_id) = some bill)
    (htid : bill.table_id ≠ "")
    (htfind : tables.find? (·.table_id == bill.table_id) = some t)
    (htstat : t.status = "occupied") :
    ∃ t', ((update_payment_status bills tables bill_id "paid").2.2).find?
        (·.table_id == bill.table_id) = some t' ∧
      (t'.status = "available" ↔
        (bills.filter (fun b => b.table_id == bill.table_id && b.bill_id != bill_id &&
          ACTIVE_BILL_STATUSES.contains b.status)).length = 0) := by
  have hp : (bill.bill_id == bill_id) = true := by
    simpa using List.find?_some hfind
  have hpt : (t.table_id == bill.table_id) = true := by
    simpa using List.find?_some htfind
  have hcount := active_count_unchanged_by_payment_update bills bill_id bill.table_id
    { bill with payment_status := "paid",
                status := if True ∧ bill.status = "open" then "paid"
                  else bill.status } hp
  simp only [update_payment_status, hfind]
  simp only [true_or, if_true, htid, ne_eq, not_false_iff, if_pos, hcount]
  by_cases hzero :
      (bills.filter (fun b => b.table_id == bill.table_id && b.bill_id != bill_id &&
        ACTIVE_BILL_STATUSES.contains b.status)).length = 0
  · rw [if_pos hzero]
    have htab : update_table_status tables bill.table_id "available" =
        .ok (updateFirst (·.table_id == bill.table_id)
          (fun x => { x with status := "available" }) tables) := by
      simp [update_table_status, htfind]
    have hfind' := find?_updateFirst_self (·.table_id == bill.table_id)
      (fun x => { x with status := "available" }) tables t htfind (by simpa using hpt)
    refine ⟨{ t with status := "available" }, ?_, iff_of_true rfl hzero⟩
    simp [htab, hfind']
  · rw [if_neg hzero]
    exact ⟨t, htfind, iff_of_false (by rw [htstat]; decide) hzero⟩

/-- C6 witness for the amended rule: one `open` bill alone on its table;
paying it releases the table (the other-active-bill count is zero). -/
theorem update_payment_status_release_witness :
    ∃ t', ((update_payment_status [⟨"b1", "T7", "o1", "open", "pending", [], 0⟩]
        [⟨"T7", 7, "occupied"⟩] "b1" "paid").2.2).find? (·.table_id == "T7") = some t' ∧
      (t'.status = "available" ↔
        (([⟨"b1", "T7", "o1", "open", "pending", [], 0⟩] : BillStore).filter
          (fun b => b.table_id == "T7" && b.bill_id != "b1" &&
            ACTIVE_BILL_STATUSES.contains b.status)).length = 0) :=
  update_payment_status_release_iff _ _ _
    ⟨"b1", "T7", "o1", "open", "pending", [], 0⟩ ⟨"T7", 7, "occupied"⟩
    (by decide) (by decide) (by decide) (by decide)

/-! ## Consistency Reconciler
(src/SOA/table-bill-service/backend/services/data_consistency.py) -/

/-- Python-dict insertion: replace the value at an existing key in place,
otherwise append the new pair (insertion order preserved). -/
def dictInsert (k : String) (v : α) : List (String × α) → List (String × α)
  | [] => [(k, v)]
  | kv :: rest => if kv.1 = k then (k, v) :: rest else kv :: dictInsert k v rest

/-- An insertion-ordered dict keyed by `key`, as built by the source's
dict comprehensions over item lists. -/
def dictBy (key : α → String) (xs : List α) : List (String × α) :=
  xs.foldl (fun d x => dictInsert (key x) x d) []

/-- Dict lookup by key. -/
def alookup (k : String) (d : List (String × α)) : Option α :=
  (d.find? (·.1 == k)).map (·.2)

/-- Python's `abs` on rationals. -/
def ratAbs (q : ℚ) : ℚ := if q < 0 then -q else q

/-- The issue strings appended by `verify_bill_consistency`,
`reconcile_bill` and `force_refresh_from_services`, abstracted as tagged
values whose payloads are the values interpolated into the f-strings. -/
inductive Issue
  | billNotFound
  | missingOrderId
  | orderNotFound (order_id : String)
  | tableMismatch (bill_table order_table : String)
  | itemMissingFromBill (item_id name : String)
  | itemMissingFromOrder (item_id name : String)
  | quantityMismatch (item_id : String) (bill_qty order_qty : ℕ)
  | priceMismatch (item_id : String) (bill_price menu_price : ℚ)
  | totalMismatch (bill_total calculated : ℚ)
  | verificationError
  | cannotReconcile (order_id : String)
  | reconciliationError
  | refreshError
deriving DecidableEq, Repr

/-- Result of `verify_bill_consistency` (its `verified` flag and `issues`
list; the informational `details` / `status` / per-check booleans derived
from the same data are omitted). -/
structure VerifyResult where
  verified : Bool
  issues : List Issue
deriving DecidableEq, Repr

/-- Source `DataConsistencyService.verify_bill_consistency` (data_consistency.py
lines 17-154), read-only.  Issues are produced in the source's order: table
mismatch, items missing from the bill (iterating the order-items dict),
items missing from the order (iterating the bill-items dict), quantity
mismatches on shared ids, price mismatches against the catalog (iterating
the raw bill-item list), total mismatch with absolute tolerance 0.001
computed from bill-recorded prices.  The source iterates shared ids over a
Python set intersection whose order is unspecified; here they are iterated
in bill-items-dict order, and theorems about `issues` only use list
membership.  An `HTTPException` raised by the order fetch (order 404) is
caught by the surrounding handler and reported as a verification-error
issue; an empty fetch result is reported as order-not-found.  A bill item
whose `item_id` is empty is skipped by the price loop and contributes
nothing to the calculated total (the whole step is guarded by
`if item_id:`). -/
def verify_bill_consistency (env : Env) (bills : BillStore) (bill_id : String) :
    VerifyResult :=
  match bills.find? (·.bill_id == bill_id) with
  | none => ⟨false, [.billNotFound]⟩
  | some bill =>
    if bill.order_id = "" then ⟨false, [.missingOrderId]⟩
    else
      match fetchOrderDetails env bill.order_id with
      | .notFound => ⟨false, [.verificationError]⟩
      | .unavailable => ⟨false, [.orderNotFound bill.order_id]⟩
      | .found od =>
        let bill_items_dict := dictBy (·.item_id) bill.items
        let order_items_dict := dictBy (·.item_id) od.items
        let table_issues :=
          if od.table_id ≠ "" ∧ bill.table_id ≠ "" ∧ od.table_id ≠ bill.table_id then
            [Issue.tableMismatch bill.table_id od.table_id]
          else []
        let missing_from_bill := order_items_dict.filterMap (fun kv =>
          if (alookup kv.1 bill_items_dict).isNone then
            some (Issue.itemMissingFromBill kv.1 kv.2.name)
          else none)
        let missing_from_order := bill_items_dict.filterMap (fun kv =>
          if (alookup kv.1 order_items_dict).isNone then
            some (Issue.itemMissingFromOrder kv.1 kv.2.name)
          else none)
        let qty_issues := bill_items_dict.filterMap (fun kv =>
          match alookup kv.1 order_items_dict with
          | none => none
          | some oi =>
            if kv.2.quantity ≠ oi.quantity then
              some (Issue.quantityMismatch kv.1 kv.2.quantity oi.quantity)
            else none)
        let price_issues := bill.items.filterMap (fun bi =>
          if bi.item_id ≠ "" then
            match fetchMenuItemDetails env bi.item_id with
            | some mi =>
              if mi.price ≠ bi.price then
                some (Issue.priceMismatch bi.item_id bi.price mi.price)
              else none
            | none => none
          else none)
        let calculated_total := ((bill.items.filter (·.item_id ≠ "")).map
          (fun bi => bi.price * (bi.quantity : ℚ))).sum
        let total_issues :=
          if ratAbs (calculated_total - bill.total_amount) > 1/1000 then
            [Issue.totalMismatch bill.total_amount calculated_total]
          else []
        let issues := table_issues ++ missing_from_bill ++ missing_from_order ++
          qty_issues ++ price_issues ++ total_issues
        ⟨issues.isEmpty, issues⟩

/-- Result of `reconcile_bill` (the `reconciled` flag and
`remaining_issues`; the `fixes_applied` log strings and the embedded
verification details are omitted). -/
structure ReconcileResult where
  reconciled : Bool
  remaining_issues : List Issue
deriving DecidableEq, Repr

/-- Source `DataConsistencyService.reconcile_bill` (data_consistency.py lines
156-317).  Runs `verify_bill_consistency`; returns unmodified when clean or
when `auto_fix` is off.  Otherwise the fix pass iterates the ORDER items
dict: a shared item keeps the bill item but adopts the order quantity (the
total is then flagged for recalculation); an item missing from the bill is
added with the current catalog price and name when available, else the order
item's recorded price (default 0) and name; bill items absent from the order
are dropped (they are simply never carried into `fixed_items`, and dropping
them alone does NOT flag the total for recalculation).  The table id is
fixed on mismatch.  The items list is always written back, so the update and
the re-verification always run on this branch; the result carries the
re-verification's outcome. -/
def reconcile_bill (env : Env) (bills : BillStore) (bill_id : String)
    (auto_fix : Bool) : ReconcileResult × BillStore :=
  let verify_results := verify_bill_consistency env bills bill_id
  if verify_results.verified then (⟨true, []⟩, bills)
  else if !auto_fix then (⟨false, verify_results.issues⟩, bills)
  else
    match bills.find? (·.bill_id == bill_id) with
    | none => (⟨false, [.billNotFound]⟩, bills)
    | some bill =>
      if bill.order_id = "" then (⟨false, [.missingOrderId]⟩, bills)
      else
        match fetchOrderDetails env bill.order_id with
        | .notFound => (⟨false, [.reconciliationError]⟩, bills)
        | .unavailable => (⟨false, [.cannotReconcile bill.order_id]⟩, bills)
        | .found od =>
          let bill_items_dict := dictBy (·.item_id) bill.items
          let order_items_dict := dictBy (·.item_id) od.items
          let fixed_items : List BillItem := order_items_dict.map (fun kv =>
            match alookup kv.1 bill_items_dict with
            | some bi =>
              if bi.quantity ≠ kv.2.quantity then { bi with quantity := kv.2.quantity }
              else bi
            | none =>
              match fetchMenuItemDetails env kv.1 with
              | some mi =>
                { item_id := kv.1, name := mi.name, price := mi.price,
                  quantity := kv.2.quantity }
              | none =>
                { item_id := kv.1, name := kv.2.name, price := kv.2.price.getD 0,
                  quantity := kv.2.quantity })
          let recalculate_total := order_items_dict.any (fun kv =>
            match alookup kv.1 bill_items_dict with
            | some bi => bi.quantity ≠ kv.2.quantity
            | none => true)
          let new_total := (fixed_items.map (fun it => it.price * (it.quantity : ℚ))).sum
          let bill' : BillDoc :=
            { bill with
                items := fixed_items,
                table_id := if od.table_id ≠ "" ∧ bill.table_id ≠ "" ∧
                    od.table_id ≠ bill.table_id then od.table_id
                  else bill.table_id,
                total_amount := if recalculate_total then new_total else bill.total_amount }
          let bills' := updateFirst (·.bill_id == bill_id) (fun _ => bill') bills
          let updated_verify := verify_bill_consistency env bills' bill_id
          (⟨updated_verify.verified, updated_verify.issues⟩, bills')

/-- Result of `force_refresh_from_services` (its `refreshed` flag and
`issues`; the `updates_applied` log strings are omitted). -/
structure RefreshResult where
  refreshed : Bool
  issues : List Issue
deriving DecidableEq, Repr

/-- Source `DataConsistencyService.force_refresh_from_services`
(data_consistency.py lines 319-484): rebuilds the bill's items from the
current order items (entries with an empty item id are skipped), preferring
the current catalog price (and nonempty catalog name), then the bill's
previously recorded price for that item id, then the order's recorded price,
then zero; recomputes the total; adopts the order's table id when it is
nonempty and differs; and promotes the bill status to `final` when the order
status is `completed` or `delivered`.  The write is an atomic
find-one-and-update on the bill id. -/
def force_refresh_from_services (env : Env) (bills : BillStore) (bill_id : String) :
    RefreshResult × BillStore :=
  match bills.find? (·.bill_id == bill_id) with
  | none => (⟨false, [.billNotFound]⟩, bills)
  | some bill =>
    if bill.order_id = "" then (⟨false, [.missingOrderId]⟩, bills)
    else
      match fetchOrderDetails env bill.order_id with
      | .notFound => (⟨false, [.refreshError]⟩, bills)
      | .unavailable => (⟨false, [.orderNotFound bill.order_id]⟩, bills)
      | .found od =>
        let refreshed_items : List BillItem :=
          (od.items.filter (·.item_id ≠ "")).map (fun oi =>
            match fetchMenuItemDetails env oi.item_id with
            | some mi =>
              { item_id := oi.item_id,
                name := if mi.name ≠ "" then mi.name else oi.name,
                price := mi.price, quantity := oi.quantity }
            | none =>
              match bill.items.find? (·.item_id == oi.item_id) with
              | some original =>
                { item_id := oi.item_id, name := oi.name,
                  price := original.price, quantity := oi.quantity }
              | none =>
                { item_id := oi.item_id, name := oi.name,
                  price := ((od.items.find? (·.item_id == oi.item_id)).bind
                    (·.price)).getD 0,
                  quantity := oi.quantity })
        let new_total := (refreshed_items.map (fun it => it.price * (it.quantity : ℚ))).sum
        let bill' : BillDoc :=
          { bill with
              items := refreshed_items,
              total_amount := new_total,
              table_id := if od.table_id ≠ "" ∧ od.table_id ≠ bill.table_id then
                  od.table_id
                else bill.table_id,
              status := if (od.status = "completed" ∨ od.status = "delivered") ∧
                  bill.status ≠ "final" then "final"
                else bill.status }
        let bills' := updateFirst (·.bill_id == bill_id) (fun _ => bill') bills
        (⟨true, []⟩, bills')

/-- The one-item completed order `o1` backing the stale-total scenario. -/
def staleTotalOrder : OrderSnapshot :=
  ⟨"T1", "completed", [⟨"A", "ItemA", 1, some 10⟩]⟩

/-- Environment for the stale-total scenario: order `o1` resolves, the menu
service is unavailable (so no price-mismatch issues arise). -/
def staleTotalEnv : Env :=
  ⟨fun oid => if oid = "o1" then .found staleTotalOrder else .unavailable,
   fun _ => none⟩

/-- Bill store for the stale-total scenario: the bill carries an extra item
`B` absent from its order, and its stored total (15) is consistent with its
own items (10 + 5). -/
def staleTotalBills : BillStore :=
  [⟨"bill-o1", "T1", "o1", "final", "pending",
    [⟨"A", "ItemA", 10, 1⟩, ⟨"B", "ItemB", 5, 1⟩], 15⟩]

/-- C1 counterexample: for a bill diverging from its order only by an extra
bill item, `verify_bill_consistency` reports exactly that issue with
`verified=false`, but after `reconcile_bill` with `auto_fix=true` a
subsequent `verify_bill_consistency` still reports `verified=false`: the
fix pass drops the extra item yet only flags the total for recalculation
when a quantity fix or an added item occurred, so the stored total (15) no
longer matches the repaired items (10) and re-verification reports a total
mismatch. -/
theorem reconcile_extra_item_leaves_total_stale :
    verify_bill_consistency staleTotalEnv staleTotalBills "bill-o1" =
      ⟨false, [.itemMissingFromOrder "B" "ItemB"]⟩ ∧
    (reconcile_bill staleTotalEnv staleTotalBills "bill-o1" true).1.remaining_issues =
      [.totalMismatch 15 10] ∧
    (verify_bill_consistency staleTotalEnv
      (reconcile_bill staleTotalEnv staleTotalBills "bill-o1" true).2
      "bill-o1").verified = false := by
  refine ⟨?_, ?_, ?_⟩ <;>
    norm_num +decide [verify_bill_consistency, reconcile_bill, staleTotalEnv,
      staleTotalBills, staleTotalOrder, fetchOrderDetails, fetchMenuItemDetails,
      dictBy, dictInsert, alookup, ratAbs, updateFirst,
      List.find?, List.filterMap, List.foldl]

/-! Dictionary and first-match lemmas used to reason about the verify /
reconcile pass under distinct item ids. -/

theorem dictInsert_fresh (k : String) (v : α) (d : List (String × α))
    (h : ∀ kv ∈ d, kv.1 ≠ k) : dictInsert k v d = d ++ [(k, v)] := by
  induction d with
  | nil => rfl
  | cons kv rest ih =>
    have h1 : kv.1 ≠ k := h kv (by simp)
    simp [dictInsert, h1, ih (fun x hx => h x (by simp [hx]))]

theorem foldl_dictInsert_eq (key : α → String) :
    ∀ (xs : List α) (acc : List (String × α)),
      (xs.map key).Nodup →
      (∀ kv ∈ acc, ∀ x ∈ xs, kv.1 ≠ key x) →
      xs.foldl (fun d x => dictInsert (key x) x d) acc =
        acc ++ xs.map (fun x => (key x, x))
  | [], acc, _, _ => by simp
  | x :: xs, acc, h, hacc => by
    simp only [List.foldl_cons]
    rw [List.map_cons] at h
    have hpair := List.nodup_cons.mp h
    have hfresh : ∀ kv ∈ acc, kv.1 ≠ key x := fun kv hkv => hacc kv hkv x (by simp)
    rw [dictInsert_fresh _ _ _ hfresh]
    rw [foldl_dictInsert_eq key xs (acc ++ [(key x, x)]) hpair.2 ?_]
    · simp
    · intro kv hkv y hy
      rcases List.mem_append.mp hkv with h1 | h2
      · exact hacc kv h1 y (List.mem_cons_of_mem _ hy)
      · have hkx : kv = (key x, x) := by simpa using h2
        subst hkx
        intro he
        have he' : key x = key y := he
        exact hpair.1 (by rw [he']; exact List.mem_map_of_mem key hy)

theorem dictBy_eq_map (key : α → String) (xs : List α) (h : (xs.map key).Nodup) :
    dictBy key xs = xs.map (fun x => (key x, x)) :=
  foldl_dictInsert_eq key xs [] h (by simp)

theorem alookup_map_pair (key : α → String) (xs : List α) (k : String) :
    alookup k (xs.map (fun x => (key x, x))) = xs.find? (fun x => key x == k) := by
  induction xs with
  | nil => rfl
  | cons x xs ih =>
    simp only [List.map_cons, alookup, List.find?] at *
    by_cases hb : key x == k
    · simp [hb]
    · simp only [hb]
      simpa [alookup, hb] using ih

theorem find?_key_eq_of_nodup (key : α → String) (l : List α)
    (hnd : (l.map key).Nodup) (x : α) (hx : x ∈ l) :
    l.find? (fun y => key y == key x) = some x := by
  induction l with
  | nil => simp at hx
  | cons y ys ih =>
    rw [List.map_cons] at hnd
    have hpair := List.nodup_cons.mp hnd
    by_cases hb : key y = key x
    · have hxy : x = y := by
        rcases List.mem_cons.mp hx with h1 | h2
        · exact h1
        · exact absurd (by simpa [hb] using List.mem_map_of_mem key h2) hpair.1
      subst hxy
      simp [List.find?, hb]
    · have hx' : x ∈ ys := by
        rcases List.mem_cons.mp hx with h1 | h2
        · exact absurd (by rw [h1]) hb
        · exact h2
      have hne : (key y == key x) = false := by simpa using hb
      simp [List.find?, hne, ih hpair.2 hx']

/-- Under distinct item ids, `verify_bill_consistency` on a resolvable bill
computes exactly these issues, with the Python dicts replaced by first-match
lookups on the item lists. -/
theorem verify_issues_of_nodup
    (env : Env) (bills : BillStore) (bill_id : String) (bill : BillDoc) (od : OrderSnapshot)
    (hfind : bills.find? (·.bill_id == bill_id) = some bill)
    (hoid : bill.order_id ≠ "")
    (hfetch : env.orders bill.order_id = .found od)
    (hbnodup : (bill.items.map (·.item_id)).Nodup)
    (honodup : (od.items.map (·.item_id)).Nodup) :
    verify_bill_consistency env bills bill_id =
      (let issues :=
        (if od.table_id ≠ "" ∧ bill.table_id ≠ "" ∧ od.table_id ≠ bill.table_id then
          [Issue.tableMismatch bill.table_id od.table_id] else []) ++
        od.items.filterMap (fun oi =>
          if (bill.items.find? (·.item_id == oi.item_id)).isNone then
            some (.itemMissingFromBill oi.item_id oi.name) else none) ++
        bill.items.filterMap (fun bi =>
          if (od.items.find? (·.item_id == bi.item_id)).isNone then
            some (.itemMissingFromOrder bi.item_id bi.name) else none) ++
        bill.items.filterMap (fun bi =>
          match od.items.find? (·.item_id == bi.item_id) with
          | none => none
          | some oi => if bi.quantity ≠ oi.quantity then
              some (.quantityMismatch bi.item_id bi.quantity oi.quantity) else none) ++
        bill.items.filterMap (fun bi =>
          if bi.item_id ≠ "" then
            match fetchMenuItemDetails env bi.item_id with
            | some mi => if mi.price ≠ bi.price then
                some (.priceMismatch bi.item_id bi.price mi.price) else none
            | none => none
          else none) ++
        (if ratAbs (((bill.items.filter (·.item_id ≠ "")).map
            (fun bi => bi.price * (bi.quantity : ℚ))).sum - bill.total_amount) > 1/1000 then
          [Issue.totalMismatch bill.total_amount (((bill.items.filter (·.item_id ≠ "")).map
            (fun bi => bi.price * (bi.quantity : ℚ))).sum)] else [])
      ⟨issues.isEmpty, issues⟩) := by
  have hbd := dictBy_eq_map (·.item_id) bill.items hbnodup
  have hod := dictBy_eq_map (·.item_id) od.items honodup
  simp only [verify_bill_consistency, hfind, fetchOrderDetails, hoid, if_false,
    ite_false, if_neg, hfetch, hbd, hod, List.filterMap_map, Function.comp,
    alookup_map_pair]
  simp [Function.comp_def, List.append_assoc]



theorem find?_beq_isNone_iff (key : α → String) (l : List α) (k : String) :
    (l.find? (fun y => key y == k)).isNone ↔ ∀ y ∈ l, key y ≠ k := by
  rw [Option.isNone_iff_eq_none, List.find?_eq_none]
  simp

/-- The per-order-item repair applied by `reconcile_bill`'s fix pass, as a
standalone function (the body of the loop over the order-items dict): keep
the bill item with the order quantity when the id is shared, otherwise build
a new item from the catalog when available, else from the order data. -/
def reconcileFix (env : Env) (bill : BillDoc) (oi : OrderSnapshotItem) : BillItem :=
  match bill.items.find? (·.item_id == oi.item_id) with
  | some bi =>
    if bi.quantity ≠ oi.quantity then { bi with quantity := oi.quantity } else bi
  | none =>
    match fetchMenuItemDetails env oi.item_id with
    | some mi => ⟨oi.item_id, mi.name, mi.price, oi.quantity⟩
    | none => ⟨oi.item_id, oi.name, oi.price.getD 0, oi.quantity⟩

/-- Source `reconcile_bill` recalculate-total flag, as a standalone predicate:
set when some order item is missing from the bill or has a differing
quantity. -/
def reconcileRecalc (bill : BillDoc) (od : OrderSnapshot) : Bool :=
  od.items.any (fun oi =>
    match bill.items.find? (·.item_id == oi.item_id) with
    | some bi => bi.quantity ≠ oi.quantity
    | none => true)

/-- Under distinct item ids, the store written by `reconcile_bill` with
`auto_fix` on an unverified, resolvable bill updates that bill with the
repaired items, the possibly-fixed table id, and the recalculated total when
flagged. -/
theorem reconcile_fix_store
    (env : Env) (bills : BillStore) (bill_id : String) (bill : BillDoc) (od : OrderSnapshot)
    (hfind : bills.find? (·.bill_id == bill_id) = some bill)
    (hoid : bill.order_id ≠ "")
    (hfetch : env.orders bill.order_id = .found od)
    (hbnodup : (bill.items.map (·.item_id)).Nodup)
    (honodup : (od.items.map (·.item_id)).Nodup)
    (hvfalse : (verify_bill_consistency env bills bill_id).verified = false) :
    (reconcile_bill env bills bill_id true).2 =
      updateFirst (·.bill_id == bill_id) (fun _ =>
        { bill with
            items := od.items.map (fun oi => reconcileFix env bill oi),
            table_id := if od.table_id ≠ "" ∧ bill.table_id ≠ "" ∧
                od.table_id ≠ bill.table_id then od.table_id else bill.table_id,
            total_amount := if reconcileRecalc bill od then
                ((od.items.map (fun oi => reconcileFix env bill oi)).map
                  (fun it => it.price * (it.quantity : ℚ))).sum
              else bill.total_amount }) bills := by
  have hbd := dictBy_eq_map (·.item_id) bill.items hbnodup
  have hod := dictBy_eq_map (·.item_id) od.items honodup
  simp only [reconcile_bill, hvfalse, hfind, fetchOrderDetails, hoid, hfetch,
    hbd, hod, List.map_map, List.any_map, Function.comp_def, alookup_map_pair,
    reconcileFix, reconcileRecalc, Bool.not_true, if_false, ite_false, if_neg,
    Bool.false_eq_true, reduceIte]
  simp [List.any_map, Function.comp_def]



theorem reconcileFix_item_id (env : Env) (bill : BillDoc) (oi : OrderSnapshotItem) :
    (reconcileFix env bill oi).item_id = oi.item_id := by
  unfold reconcileFix
  cases hf : bill.items.find? (·.item_id == oi.item_id) with
  | none =>
    cases fetchMenuItemDetails env oi.item_id <;> simp
  | some bi =>
    have : bi.item_id = oi.item_id := by simpa using List.find?_some hf
    by_cases hq : bi.quantity = oi.quantity <;> simp [hq, this]

theorem reconcileFix_quantity (env : Env) (bill : BillDoc) (oi : OrderSnapshotItem) :
    (reconcileFix env bill oi).quantity = oi.quantity := by
  unfold reconcileFix
  cases hf : bill.items.find? (·.item_id == oi.item_id) with
  | none =>
    cases fetchMenuItemDetails env oi.item_id <;> simp
  | some bi =>
    by_cases hq : bi.quantity = oi.quantity <;> simp [hq]

theorem reconcileFix_price (env : Env) (bill : BillDoc) (oi : OrderSnapshotItem)
    (hprice : ∀ bi ∈ bill.items, ∀ mi, fetchMenuItemDetails env bi.item_id = some mi →
      mi.price = bi.price)
    (mi : MenuItem) (hmi : fetchMenuItemDetails env oi.item_id = some mi) :
    mi.price = (reconcileFix env bill oi).price := by
  unfold reconcileFix
  cases hf : bill.items.find? (·.item_id == oi.item_id) with
  | none => simp [hmi]
  | some bi =>
    have hid : bi.item_id = oi.item_id := by simpa using List.find?_some hf
    have := hprice bi (List.mem_of_find?_eq_some hf) mi (by rw [hid]; exact hmi)
    by_cases hq : bi.quantity = oi.quantity <;> simp [hq, this]



theorem reconcile_then_verify_true
    (env : Env) (bills : BillStore) (bill_id : String) (bill : BillDoc) (od : OrderSnapshot)
    (hfind : bills.find? (·.bill_id == bill_id) = some bill)
    (hoid : bill.order_id ≠ "")
    (hfetch : env.orders bill.order_id = .found od)
    (htable : od.table_id = bill.table_id)
    (hbnodup : (bill.items.map (·.item_id)).Nodup)
    (honodup : (od.items.map (·.item_id)).Nodup)
    (hone : ∀ oi ∈ od.items, oi.item_id ≠ "")
    (hprice : ∀ bi ∈ bill.items, ∀ mi, fetchMenuItemDetails env bi.item_id = some mi →
      mi.price = bi.price)
    (hvfalse : (verify_bill_consistency env bills bill_id).verified = false)
    (hdiv2 : (∃ oi ∈ od.items, ∀ bi ∈ bill.items, bi.item_id ≠ oi.item_id) ∨
      (∃ bi ∈ bill.items, ∃ oi ∈ od.items, bi.item_id = oi.item_id ∧
        bi.quantity ≠ oi.quantity)) :
    (verify_bill_consistency env (reconcile_bill env bills bill_id true).2
      bill_id).verified = true := by
  have hrec := reconcile_fix_store env bills bill_id bill od hfind hoid hfetch
    hbnodup honodup hvfalse
  have hrecalc : reconcileRecalc bill od = true := by
    rw [reconcileRecalc, List.any_eq_true]
    rcases hdiv2 with ⟨oi, hoi, hall⟩ | ⟨bi, hbi, oi, hoi, hid, hq⟩
    · refine ⟨oi, hoi, ?_⟩
      have hn : bill.items.find? (·.item_id == oi.item_id) = none := by
        rw [List.find?_eq_none]
        intro y hy
        simpa using hall y hy
      simp [hn]
    · refine ⟨oi, hoi, ?_⟩
      have hf : bill.items.find? (·.item_id == oi.item_id) = some bi := by
        rw [← hid]
        exact find?_key_eq_of_nodup (·.item_id) bill.items hbnodup bi hbi
      simp [hf, hq]
  have htcond : ¬(od.table_id ≠ "" ∧ bill.table_id ≠ "" ∧ od.table_id ≠ bill.table_id) := by
    simp [htable]
  rw [if_neg htcond, if_pos hrecalc] at hrec
  set bill1 : BillDoc :=
    { bill with
        items := od.items.map (fun oi => reconcileFix env bill oi),
        table_id := bill.table_id,
        total_amount := ((od.items.map (fun oi => reconcileFix env bill oi)).map
          (fun it => it.price * (it.quantity : ℚ))).sum } with hb1
  have hp1 : (bill1.bill_id == bill_id) = true := by
    simpa using List.find?_some hfind
  have hfind1 : ((reconcile_bill env bills bill_id true).2).find?
      (·.bill_id == bill_id) = some bill1 := by
    rw [hrec]
    exact find?_updateFirst_self _ _ _ _ hfind hp1
  have hmem1 : ∀ y ∈ bill1.items, ∃ oi ∈ od.items, reconcileFix env bill oi = y := by
    intro y hy
    rw [hb1] at hy
    rcases List.mem_map.mp hy with ⟨oi, hoi, he⟩
    exact ⟨oi, hoi, he⟩
  have hids : bill1.items.map (·.item_id) = od.items.map (·.item_id) := by
    rw [hb1]
    simp only [List.map_map]
    exact List.map_congr_left (fun oi _ => reconcileFix_item_id env bill oi)
  have hb1nodup : (bill1.items.map (·.item_id)).Nodup := by rw [hids]; exact honodup
  have hver1 := verify_issues_of_nodup env (reconcile_bill env bills bill_id true).2
    bill_id bill1 od hfind1 hoid hfetch hb1nodup honodup
  have e1 : (if od.table_id ≠ "" ∧ bill1.table_id ≠ "" ∧ od.table_id ≠ bill1.table_id then
      [Issue.tableMismatch bill1.table_id od.table_id] else []) = ([] : List Issue) := by
    simp [hb1, htable]
  have e2 : od.items.filterMap (fun oi =>
      if (bill1.items.find? (·.item_id == oi.item_id)).isNone then
        some (Issue.itemMissingFromBill oi.item_id oi.name) else none) = [] := by
    rw [List.filterMap_eq_nil_iff]
    intro oi hoi
    have hmem : reconcileFix env bill oi ∈ bill1.items := by
      rw [hb1]
      exact List.mem_map_of_mem _ hoi
    have hnone : ¬((bill1.items.find? (·.item_id == oi.item_id)).isNone = true) := by
      intro h
      have := (find?_beq_isNone_iff (·.item_id) bill1.items oi.item_id).mp h
        (reconcileFix env bill oi) hmem
      exact this (reconcileFix_item_id env bill oi)
    have hfalse := Bool.eq_false_iff.mpr hnone
    simp only [hfalse]
    simp
  have hfod : ∀ oi ∈ od.items,
      od.items.find? (·.item_id == (reconcileFix env bill oi).item_id) = some oi := by
    intro oi hoi
    rw [reconcileFix_item_id env bill oi]
    exact find?_key_eq_of_nodup (·.item_id) od.items honodup oi hoi
  have e3 : bill1.items.filterMap (fun bi =>
      if (od.items.find? (·.item_id == bi.item_id)).isNone then
        some (Issue.itemMissingFromOrder bi.item_id bi.name) else none) = [] := by
    rw [List.filterMap_eq_nil_iff]
    intro y hy
    rcases hmem1 y hy with ⟨oi, hoi, rfl⟩
    simp [hfod oi hoi]
  have e4 : bill1.items.filterMap (fun bi =>
      match od.items.find? (·.item_id == bi.item_id) with
      | none => none
      | some oi => if bi.quantity ≠ oi.quantity then
          some (Issue.quantityMismatch bi.item_id bi.quantity oi.quantity) else none) = [] := by
    rw [List.filterMap_eq_nil_iff]
    intro y hy
    rcases hmem1 y hy with ⟨oi, hoi, rfl⟩
    simp [hfod oi hoi, reconcileFix_quantity env bill oi]
  have e5 : bill1.items.filterMap (fun bi =>
      if bi.item_id ≠ "" then
        match fetchMenuItemDetails env bi.item_id with
        | some mi => if mi.price ≠ bi.price then
            some (Issue.priceMismatch bi.item_id bi.price mi.price) else none
        | none => none
      else none) = [] := by
    rw [List.filterMap_eq_nil_iff]
    intro y hy
    rcases hmem1 y hy with ⟨oi, hoi, rfl⟩
    by_cases hid : (reconcileFix env bill oi).item_id = ""
    · simp [hid]
    · cases hm : fetchMenuItemDetails env (reconcileFix env bill oi).item_id with
      | none => simp [hid, hm]
      | some mi =>
        have hm' : fetchMenuItemDetails env oi.item_id = some mi := by
          rw [← reconcileFix_item_id env bill oi]
          exact hm
        have := reconcileFix_price env bill oi hprice mi hm'
        simp [hid, hm, this]
  have hfilter1 : bill1.items.filter (·.item_id ≠ "") = bill1.items := by
    rw [List.filter_eq_self]
    intro y hy
    rcases hmem1 y hy with ⟨oi, hoi, rfl⟩
    have : (reconcileFix env bill oi).item_id = oi.item_id :=
      reconcileFix_item_id env bill oi
    simpa [this] using hone oi hoi
  have htot1 : bill1.total_amount = ((bill1.items).map
      (fun bi => bi.price * (bi.quantity : ℚ))).sum := by
    simp [hb1]
  have e6 : (if ratAbs (((bill1.items.filter (·.item_id ≠ "")).map
      (fun bi => bi.price * (bi.quantity : ℚ))).sum - bill1.total_amount) > 1/1000 then
      [Issue.totalMismatch bill1.total_amount (((bill1.items.filter (·.item_id ≠ "")).map
        (fun bi => bi.price * (bi.quantity : ℚ))).sum)] else []) = ([] : List Issue) := by
    rw [hfilter1, ← htot1]
    norm_num [ratAbs]
  have hverified1 : (verify_bill_consistency env
      (reconcile_bill env bills bill_id true).2 bill_id).verified =
      (((if od.table_id ≠ "" ∧ bill1.table_id ≠ "" ∧ od.table_id ≠ bill1.table_id then
          [Issue.tableMismatch bill1.table_id od.table_id] else []) ++
        od.items.filterMap (fun oi =>
          if (bill1.items.find? (·.item_id == oi.item_id)).isNone then
            some (Issue.itemMissingFromBill oi.item_id oi.name) else none) ++
        bill1.items.filterMap (fun bi =>
          if (od.items.find? (·.item_id == bi.item_id)).isNone then
            some (Issue.itemMissingFromOrder bi.item_id bi.name) else none) ++
        bill1.items.filterMap (fun bi =>
          match od.items.find? (·.item_id == bi.item_id) with
          | none => none
          | some oi => if bi.quantity ≠ oi.quantity then
              some (Issue.quantityMismatch bi.item_id bi.quantity oi.quantity) else none) ++
        bill1.items.filterMap (fun bi =>
          if bi.item_id ≠ "" then
            match fetchMenuItemDetails env bi.item_id with
            | some mi => if mi.price ≠ bi.price then
                some (Issue.priceMismatch bi.item_id bi.price mi.price) else none
            | none => none
          else none) ++
        (if ratAbs (((bill1.items.filter (·.item_id ≠ "")).map
            (fun bi => bi.price * (bi.quantity : ℚ))).sum - bill1.total_amount) > 1/1000 then
          [Issue.totalMismatch bill1.total_amount (((bill1.items.filter (·.item_id ≠ "")).map
            (fun bi => bi.price * (bi.quantity : ℚ))).sum)] else []) : List Issue)).isEmpty := by
    rw [hver1]
  rw [hverified1, e1, e2, e3, e4, e5, e6]
  rfl



/-- C1 (amended): for a stored bill whose items diverge from its resolvable
source order in any combination of missing item, extra item, or quantity
mismatch (with matching table id, catalog-consistent prices, a stored total
consistent with the bill's own items, distinct nonempty item ids),
`verify_bill_consistency` reports `verified=false` and its issues are
exactly the divergence issues; and after `reconcile_bill` with
`auto_fix=true`, a subsequent `verify_bill_consistency` reports
`verified=true` PROVIDED the divergence includes at least one missing item
or quantity mismatch.  (When the divergence is only extra bill items, the
fix pass drops them without recalculating the stored total, and
re-verification reports a total mismatch — see the counterexample.) -/
theorem verify_exact_issues_and_reconcile
    (env : Env) (bills : BillStore) (bill_id : String) (bill : BillDoc) (od : OrderSnapshot)
    (hfind : bills.find? (·.bill_id == bill_id) = some bill)
    (hoid : bill.order_id ≠ "")
    (hfetch : env.orders bill.order_id = .found od)
    (htable : od.table_id = bill.table_id)
    (hbnodup : (bill.items.map (·.item_id)).Nodup)
    (honodup : (od.items.map (·.item_id)).Nodup)
    (hbne : ∀ bi ∈ bill.items, bi.item_id ≠ "")
    (hone : ∀ oi ∈ od.items, oi.item_id ≠ "")
    (hprice : ∀ bi ∈ bill.items, ∀ mi, fetchMenuItemDetails env bi.item_id = some mi →
      mi.price = bi.price)
    (htotal : bill.total_amount =
      ((bill.items.map (fun bi => bi.price * (bi.quantity : ℚ)))).sum)
    (hdiv : (∃ oi ∈ od.items, ∀ bi ∈ bill.items, bi.item_id ≠ oi.item_id) ∨
            (∃ bi ∈ bill.items, ∀ oi ∈ od.items, oi.item_id ≠ bi.item_id) ∨
            (∃ bi ∈ bill.items, ∃ oi ∈ od.items, bi.item_id = oi.item_id ∧
              bi.quantity ≠ oi.quantity)) :
    (verify_bill_consistency env bills bill_id).verified = false ∧
    (∀ i, i ∈ (verify_bill_consistency env bills bill_id).issues ↔
      ((∃ oi ∈ od.items, (∀ bi ∈ bill.items, bi.item_id ≠ oi.item_id) ∧
         i = Issue.itemMissingFromBill oi.item_id oi.name) ∨
       (∃ bi ∈ bill.items, (∀ oi ∈ od.items, oi.item_id ≠ bi.item_id) ∧
         i = Issue.itemMissingFromOrder bi.item_id bi.name) ∨
       (∃ bi ∈ bill.items, ∃ oi ∈ od.items, bi.item_id = oi.item_id ∧
         bi.quantity ≠ oi.quantity ∧
         i = Issue.quantityMismatch bi.item_id bi.quantity oi.quantity))) ∧
    (((∃ oi ∈ od.items, ∀ bi ∈ bill.items, bi.item_id ≠ oi.item_id) ∨
      (∃ bi ∈ bill.items, ∃ oi ∈ od.items, bi.item_id = oi.item_id ∧
        bi.quantity ≠ oi.quantity)) →
      (verify_bill_consistency env
        (reconcile_bill env bills bill_id true).2 bill_id).verified = true) := by
  have hver := verify_issues_of_nodup env bills bill_id bill od hfind hoid hfetch
    hbnodup honodup
  have htab0 : (if od.table_id ≠ "" ∧ bill.table_id ≠ "" ∧ od.table_id ≠ bill.table_id then
      [Issue.tableMismatch bill.table_id od.table_id] else []) = ([] : List Issue) := by
    simp [htable]
  have hpr0 : bill.items.filterMap (fun bi =>
      if bi.item_id ≠ "" then
        match fetchMenuItemDetails env bi.item_id with
        | some mi => if mi.price ≠ bi.price then
            some (Issue.priceMismatch bi.item_id bi.price mi.price) else none
        | none => none
      else none) = [] := by
    rw [List.filterMap_eq_nil_iff]
    intro bi hbi
    by_cases hid : bi.item_id = ""
    · simp [hid]
    · cases hm : fetchMenuItemDetails env bi.item_id with
      | none => simp [hid, hm]
      | some mi => simp [hid, hm, hprice bi hbi mi hm]
  have hfilter : bill.items.filter (·.item_id ≠ "") = bill.items := by
    rw [List.filter_eq_self]
    intro a ha
    simpa using hbne a ha
  have htot0 : (if ratAbs (((bill.items.filter (·.item_id ≠ "")).map
      (fun bi => bi.price * (bi.quantity : ℚ))).sum - bill.total_amount) > 1/1000 then
      [Issue.totalMismatch bill.total_amount (((bill.items.filter (·.item_id ≠ "")).map
        (fun bi => bi.price * (bi.quantity : ℚ))).sum)] else []) = ([] : List Issue) := by
    rw [hfilter, ← htotal]
    norm_num [ratAbs]
  have hissues0 : (verify_bill_consistency env bills bill_id).issues =
      (((if od.table_id ≠ "" ∧ bill.table_id ≠ "" ∧ od.table_id ≠ bill.table_id then
          [Issue.tableMismatch bill.table_id od.table_id] else []) ++
        od.items.filterMap (fun oi =>
          if (bill.items.find? (·.item_id == oi.item_id)).isNone then
            some (Issue.itemMissingFromBill oi.item_id oi.name) else none) ++
        bill.items.filterMap (fun bi =>
          if (od.items.find? (·.item_id == bi.item_id)).isNone then
            some (Issue.itemMissingFromOrder bi.item_id bi.name) else none) ++
        bill.items.filterMap (fun bi =>
          match od.items.find? (·.item_id == bi.item_id) with
          | none => none
          | some oi => if bi.quantity ≠ oi.quantity then
              some (Issue.quantityMismatch bi.item_id bi.quantity oi.quantity) else none) ++
        bill.items.filterMap (fun bi =>
          if bi.item_id ≠ "" then
            match fetchMenuItemDetails env bi.item_id with
            | some mi => if mi.price ≠ bi.price then
                some (Issue.priceMismatch bi.item_id bi.price mi.price) else none
            | none => none
          else none) ++
        (if ratAbs (((bill.items.filter (·.item_id ≠ "")).map
            (fun bi => bi.price * (bi.quantity : ℚ))).sum - bill.total_amount) > 1/1000 then
          [Issue.totalMismatch bill.total_amount (((bill.items.filter (·.item_id ≠ "")).map
            (fun bi => bi.price * (bi.quantity : ℚ))).sum)] else [])) : List Issue) := by
    rw [hver]
  have hissues : (verify_bill_consistency env bills bill_id).issues =
      od.items.filterMap (fun oi =>
        if (bill.items.find? (·.item_id == oi.item_id)).isNone then
          some (Issue.itemMissingFromBill oi.item_id oi.name) else none) ++
      (bill.items.filterMap (fun bi =>
        if (od.items.find? (·.item_id == bi.item_id)).isNone then
          some (Issue.itemMissingFromOrder bi.item_id bi.name) else none) ++
      bill.items.filterMap (fun bi =>
        match od.items.find? (·.item_id == bi.item_id) with
        | none => none
        | some oi => if bi.quantity ≠ oi.quantity then
            some (Issue.quantityMismatch bi.item_id bi.quantity oi.quantity) else none)) := by
    rw [hissues0, htab0, hpr0, htot0]
    simp
  have hmb_mem : ∀ i : Issue, i ∈ od.items.filterMap (fun oi =>
      if (bill.items.find? (·.item_id == oi.item_id)).isNone then
        some (Issue.itemMissingFromBill oi.item_id oi.name) else none) ↔
      (∃ oi ∈ od.items, (∀ bi ∈ bill.items, bi.item_id ≠ oi.item_id) ∧
        i = Issue.itemMissingFromBill oi.item_id oi.name) := by
    intro i
    rw [List.mem_filterMap]
    constructor
    · rintro ⟨oi, hoi, hsome⟩
      by_cases hn : (bill.items.find? (·.item_id == oi.item_id)).isNone = true
      · rw [if_pos hn] at hsome
        exact ⟨oi, hoi, (find?_beq_isNone_iff (·.item_id) bill.items oi.item_id).mp hn,
          (Option.some_inj.mp hsome).symm⟩
      · rw [if_neg hn] at hsome
        cases hsome
    · rintro ⟨oi, hoi, hall, rfl⟩
      exact ⟨oi, hoi, by
        rw [if_pos ((find?_beq_isNone_iff (·.item_id) bill.items oi.item_id).mpr hall)]⟩
  have hmo_mem : ∀ i : Issue, i ∈ bill.items.filterMap (fun bi =>
      if (od.items.find? (·.item_id == bi.item_id)).isNone then
        some (Issue.itemMissingFromOrder bi.item_id bi.name) else none) ↔
      (∃ bi ∈ bill.items, (∀ oi ∈ od.items, oi.item_id ≠ bi.item_id) ∧
        i = Issue.itemMissingFromOrder bi.item_id bi.name) := by
    intro i
    rw [List.mem_filterMap]
    constructor
    · rintro ⟨bi, hbi, hsome⟩
      by_cases hn : (od.items.find? (·.item_id == bi.item_id)).isNone = true
      · rw [if_pos hn] at hsome
        exact ⟨bi, hbi, (find?_beq_isNone_iff (·.item_id) od.items bi.item_id).mp hn,
          (Option.some_inj.mp hsome).symm⟩
      · rw [if_neg hn] at hsome
        cases hsome
    · rintro ⟨bi, hbi, hall, rfl⟩
      exact ⟨bi, hbi, by
        rw [if_pos ((find?_beq_isNone_iff (·.item_id) od.items bi.item_id).mpr hall)]⟩
  have hqy_mem : ∀ i : Issue, i ∈ bill.items.filterMap (fun bi =>
      match od.items.find? (·.item_id == bi.item_id) with
      | none => none
      | some oi => if bi.quantity ≠ oi.quantity then
          some (Issue.quantityMismatch bi.item_id bi.quantity oi.quantity) else none) ↔
      (∃ bi ∈ bill.items, ∃ oi ∈ od.items, bi.item_id = oi.item_id ∧
        bi.quantity ≠ oi.quantity ∧
        i = Issue.quantityMismatch bi.item_id bi.quantity oi.quantity) := by
    intro i
    rw [List.mem_filterMap]
    constructor
    · rintro ⟨bi, hbi, hsome⟩
      cases hf : od.items.find? (·.item_id == bi.item_id) with
      | none =>
        rw [hf] at hsome
        have hsome2 : (none : Option Issue) = some i := hsome
        cases hsome2
      | some oi =>
        rw [hf] at hsome
        have hsome2 : (if bi.quantity ≠ oi.quantity then
            some (Issue.quantityMismatch bi.item_id bi.quantity oi.quantity)
          else none) = some i := hsome
        by_cases hq : bi.quantity ≠ oi.quantity
        · rw [if_pos hq] at hsome2
          have hid : oi.item_id = bi.item_id := by simpa using List.find?_some hf
          exact ⟨bi, hbi, oi, List.mem_of_find?_eq_some hf, hid.symm, hq,
            (Option.some_inj.mp hsome2).symm⟩
        · rw [if_neg hq] at hsome2
          cases hsome2
    · rintro ⟨bi, hbi, oi, hoi, hid, hq, rfl⟩
      refine ⟨bi, hbi, ?_⟩
      have hf : od.items.find? (·.item_id == bi.item_id) = some oi := by
        rw [hid]
        exact find?_key_eq_of_nodup (·.item_id) od.items honodup oi hoi
      rw [hf]
      show (if bi.quantity ≠ oi.quantity then
          some (Issue.quantityMismatch bi.item_id bi.quantity oi.quantity)
        else none) = some (Issue.quantityMismatch bi.item_id bi.quantity oi.quantity)
      rw [if_pos hq]
  have part2 : ∀ i, i ∈ (verify_bill_consistency env bills bill_id).issues ↔
      ((∃ oi ∈ od.items, (∀ bi ∈ bill.items, bi.item_id ≠ oi.item_id) ∧
         i = Issue.itemMissingFromBill oi.item_id oi.name) ∨
       (∃ bi ∈ bill.items, (∀ oi ∈ od.items, oi.item_id ≠ bi.item_id) ∧
         i = Issue.itemMissingFromOrder bi.item_id bi.name) ∨
       (∃ bi ∈ bill.items, ∃ oi ∈ od.items, bi.item_id = oi.item_id ∧
         bi.quantity ≠ oi.quantity ∧
         i = Issue.quantityMismatch bi.item_id bi.quantity oi.quantity)) := by
    intro i
    rw [hissues, List.mem_append, List.mem_append, hmb_mem i, hmo_mem i, hqy_mem i]
  have part1 : (verify_bill_consistency env bills bill_id).verified = false := by
    have hv_ie : (verify_bill_consistency env bills bill_id).verified =
        ((verify_bill_consistency env bills bill_id).issues).isEmpty := by
      rw [hver]
    have hi0 : ∃ i, i ∈ (verify_bill_consistency env bills bill_id).issues := by
      rcases hdiv with ⟨oi, hoi, hall⟩ | ⟨bi, hbi, hall⟩ | ⟨bi, hbi, oi, hoi, hid, hq⟩
      · exact ⟨Issue.itemMissingFromBill oi.item_id oi.name,
          (part2 _).mpr (Or.inl ⟨oi, hoi, hall, rfl⟩)⟩
      · exact ⟨Issue.itemMissingFromOrder bi.item_id bi.name,
          (part2 _).mpr (Or.inr (Or.inl ⟨bi, hbi, hall, rfl⟩))⟩
      · exact ⟨Issue.quantityMismatch bi.item_id bi.quantity oi.quantity,
          (part2 _).mpr (Or.inr (Or.inr ⟨bi, hbi, oi, hoi, hid, hq, rfl⟩))⟩
    rcases hi0 with ⟨i0, hi0⟩
    rw [hv_ie]
    rcases he : (verify_bill_consistency env bills bill_id).issues with _ | ⟨a, l⟩
    · rw [he] at hi0
      cases hi0
    · rfl
  exact ⟨part1, part2, fun hdiv2 => reconcile_then_verify_true env bills bill_id bill od
    hfind hoid hfetch htable hbnodup honodup hone hprice part1 hdiv2⟩



/-- A one-item completed order (quantity 2) used by the quantity-mismatch
scenario. -/
def qtyMismatchOrder : OrderSnapshot := ⟨"T1", "completed", [⟨"A", "ItemA", 2, some 10⟩]⟩

def qtyMismatchEnv : Env :=
  ⟨fun oid => if oid = "o1" then .found qtyMismatchOrder else .unavailable, fun _ => none⟩

def qtyMismatchBill : BillDoc :=
  ⟨"bill-o1", "T1", "o1", "final", "pending", [⟨"A", "ItemA", 10, 1⟩], 10⟩

/-- C1 witness: a one-item bill whose quantity (1) differs from its order's
quantity (2); the amended claim's hypotheses hold and all three conclusions
apply. -/
theorem verify_exact_issues_witness :
    (verify_bill_consistency qtyMismatchEnv [qtyMismatchBill] "bill-o1").verified = false ∧
    (∀ i, i ∈ (verify_bill_consistency qtyMismatchEnv [qtyMismatchBill] "bill-o1").issues ↔
      ((∃ oi ∈ qtyMismatchOrder.items,
          (∀ bi ∈ qtyMismatchBill.items, bi.item_id ≠ oi.item_id) ∧
         i = Issue.itemMissingFromBill oi.item_id oi.name) ∨
       (∃ bi ∈ qtyMismatchBill.items,
          (∀ oi ∈ qtyMismatchOrder.items, oi.item_id ≠ bi.item_id) ∧
         i = Issue.itemMissingFromOrder bi.item_id bi.name) ∨
       (∃ bi ∈ qtyMismatchBill.items, ∃ oi ∈ qtyMismatchOrder.items,
          bi.item_id = oi.item_id ∧ bi.quantity ≠ oi.quantity ∧
         i = Issue.quantityMismatch bi.item_id bi.quantity oi.quantity))) ∧
    (((∃ oi ∈ qtyMismatchOrder.items,
        ∀ bi ∈ qtyMismatchBill.items, bi.item_id ≠ oi.item_id) ∨
      (∃ bi ∈ qtyMismatchBill.items, ∃ oi ∈ qtyMismatchOrder.items,
        bi.item_id = oi.item_id ∧ bi.quantity ≠ oi.quantity)) →
      (verify_bill_consistency qtyMismatchEnv
        (reconcile_bill qtyMismatchEnv [qtyMismatchBill] "bill-o1" true).2
        "bill-o1").verified = true) :=
  verify_exact_issues_and_reconcile qtyMismatchEnv [qtyMismatchBill] "bill-o1"
    qtyMismatchBill qtyMismatchOrder
    rfl
    (by decide)
    rfl
    rfl
    (by simp [qtyMismatchBill])
    (by simp [qtyMismatchOrder])
    (by intro bi hbi; simp [qtyMismatchBill] at hbi; simp [hbi])
    (by intro oi hoi; simp [qtyMismatchOrder] at hoi; simp [hoi])
    (by intro bi hbi mi hmi; simp [fetchMenuItemDetails, qtyMismatchEnv] at hmi)
    (by norm_num [qtyMismatchBill])
    (Or.inr (Or.inr ⟨⟨"A", "ItemA", 10, 1⟩, by simp [qtyMismatchBill],
      ⟨"A", "ItemA", 2, some 10⟩, by simp [qtyMismatchOrder], rfl, by decide⟩))



/-- The per-order-item rebuild applied by `force_refresh_from_services`, as
a standalone function (the body of its refresh loop). -/
def refreshItem (env : Env) (bill : BillDoc) (od : OrderSnapshot)
    (oi : OrderSnapshotItem) : BillItem :=
  match fetchMenuItemDetails env oi.item_id with
  | some mi =>
    { item_id := oi.item_id, name := if mi.name ≠ "" then mi.name else oi.name,
      price := mi.price, quantity := oi.quantity }
  | none =>
    match bill.items.find? (·.item_id == oi.item_id) with
    | some original =>
      { item_id := oi.item_id, name := oi.name, price := original.price,
        quantity := oi.quantity }
    | none =>
      { item_id := oi.item_id, name := oi.name,
        price := ((od.items.find? (·.item_id == oi.item_id)).bind (·.price)).getD 0,
        quantity := oi.quantity }

/-- The price-precedence chain exactly as the spec words it for the refresh
path: the catalog price when the catalog lookup succeeds, otherwise the
bill's previously recorded price for that item id, otherwise the order's
recorded price, otherwise zero.  This definition follows the spec's words
and exists to be compared with `force_refresh_from_services`. -/
def refreshPriceSpec (env : Env) (bill : BillDoc) (od : OrderSnapshot)
    (oi : OrderSnapshotItem) : ℚ :=
  match fetchMenuItemDetails env oi.item_id with
  | some mi => mi.price
  | none =>
    match bill.items.find? (·.item_id == oi.item_id) with
    | some original => original.price
    | none => ((od.items.find? (·.item_id == oi.item_id)).bind (·.price)).getD 0

theorem refreshItem_item_id (env : Env) (bill : BillDoc) (od : OrderSnapshot)
    (oi : OrderSnapshotItem) : (refreshItem env bill od oi).item_id = oi.item_id := by
  unfold refreshItem
  cases fetchMenuItemDetails env oi.item_id with
  | some mi => rfl
  | none => cases bill.items.find? (·.item_id == oi.item_id) <;> rfl

theorem refreshItem_quantity (env : Env) (bill : BillDoc) (od : OrderSnapshot)
    (oi : OrderSnapshotItem) : (refreshItem env bill od oi).quantity = oi.quantity := by
  unfold refreshItem
  cases fetchMenuItemDetails env oi.item_id with
  | some mi => rfl
  | none => cases bill.items.find? (·.item_id == oi.item_id) <;> rfl

theorem refreshItem_price (env : Env) (bill : BillDoc) (od : OrderSnapshot)
    (oi : OrderSnapshotItem) :
    (refreshItem env bill od oi).price = refreshPriceSpec env bill od oi := by
  unfold refreshItem refreshPriceSpec
  cases fetchMenuItemDetails env oi.item_id with
  | some mi => rfl
  | none => cases bill.items.find? (·.item_id == oi.item_id) <;> rfl

/-- The store written by `force_refresh_from_services` on a resolvable bill:
the bill is replaced by the refreshed document. -/
theorem force_refresh_store
    (env : Env) (bills : BillStore) (bill_id : String) (bill : BillDoc) (od : OrderSnapshot)
    (hfind : bills.find? (·.bill_id == bill_id) = some bill)
    (hoid : bill.order_id ≠ "")
    (hfetch : env.orders bill.order_id = .found od) :
    force_refresh_from_services env bills bill_id =
      (⟨true, []⟩, updateFirst (·.bill_id == bill_id) (fun _ =>
        { bill with
            items := (od.items.filter (·.item_id ≠ "")).map
              (fun oi => refreshItem env bill od oi),
            total_amount := (((od.items.filter (·.item_id ≠ "")).map
              (fun oi => refreshItem env bill od oi)).map
                (fun it => it.price * (it.quantity : ℚ))).sum,
            table_id := if od.table_id ≠ "" ∧ od.table_id ≠ bill.table_id then
                od.table_id
              else bill.table_id,
            status := if (od.status = "completed" ∨ od.status = "delivered") ∧
                bill.status ≠ "final" then "final"
              else bill.status }) bills) := by
  simp only [force_refresh_from_services, hfind, fetchOrderDetails, hoid, hfetch,
    refreshItem, if_neg, ite_false, if_false, reduceIte]

/-- C8: `force_refresh_from_services` on a bill whose order is resolvable
(with a nonempty order table id) reports success and rebuilds the stored
bill: each rebuilt item corresponds to an order item (same id and quantity,
entries without an id skipped) with its price given by the spec's chain
(catalog price if the lookup succeeds, else the bill's previous price for
the item id, else the order's price, else zero); the total is the sum of
price times quantity over the rebuilt items; the table id equals the
order's; and the status is `final` whenever the order status is `completed`
or `delivered`. -/
theorem force_refresh_rebuilds_bill
    (env : Env) (bills : BillStore) (bill_id : String) (bill : BillDoc) (od : OrderSnapshot)
    (hfind : bills.find? (·.bill_id == bill_id) = some bill)
    (hoid : bill.order_id ≠ "")
    (hfetch : env.orders bill.order_id = .found od)
    (htid : od.table_id ≠ "") :
    (force_refresh_from_services env bills bill_id).1.refreshed = true ∧
    (∃ b', ((force_refresh_from_services env bills bill_id).2).find?
        (·.bill_id == bill_id) = some b' ∧
      b'.items.map (·.item_id) = (od.items.filter (·.item_id ≠ "")).map (·.item_id) ∧
      (∀ it ∈ b'.items, ∃ oi ∈ od.items, it.item_id = oi.item_id ∧
        it.quantity = oi.quantity ∧ it.price = refreshPriceSpec env bill od oi) ∧
      b'.total_amount = (b'.items.map (fun it => it.price * (it.quantity : ℚ))).sum ∧
      b'.table_id = od.table_id ∧
      ((od.status = "completed" ∨ od.status = "delivered") → b'.status = "final")) := by
  have hrs := force_refresh_store env bills bill_id bill od hfind hoid hfetch
  have hp : (bill.bill_id == bill_id) = true := by
    simpa using List.find?_some hfind
  set bill1 : BillDoc :=
    { bill with
        items := (od.items.filter (·.item_id ≠ "")).map
          (fun oi => refreshItem env bill od oi),
        total_amount := (((od.items.filter (·.item_id ≠ "")).map
          (fun oi => refreshItem env bill od oi)).map
            (fun it => it.price * (it.quantity : ℚ))).sum,
        table_id := if od.table_id ≠ "" ∧ od.table_id ≠ bill.table_id then od.table_id
          else bill.table_id,
        status := if (od.status = "completed" ∨ od.status = "delivered") ∧
            bill.status ≠ "final" then "final"
          else bill.status } with hb1
  have hfr2 : (force_refresh_from_services env bills bill_id).2 =
      updateFirst (·.bill_id == bill_id) (fun _ => bill1) bills := by
    rw [hrs]
  have hfr1 : (force_refresh_from_services env bills bill_id).1 = ⟨true, []⟩ := by
    rw [hrs]
  have hfind1 : ((force_refresh_from_services env bills bill_id).2).find?
      (·.bill_id == bill_id) = some bill1 := by
    rw [hfr2]
    exact find?_updateFirst_self _ _ _ _ hfind (by simpa using hp)
  refine ⟨by rw [hfr1], bill1, hfind1, ?_, ?_, ?_, ?_, ?_⟩
  · rw [hb1]
    simp only [List.map_map]
    exact List.map_congr_left (fun oi _ => refreshItem_item_id env bill od oi)
  · intro it hit
    rw [hb1] at hit
    rcases List.mem_map.mp hit with ⟨oi, hoi, rfl⟩
    have hoi' : oi ∈ od.items := List.mem_of_mem_filter hoi
    exact ⟨oi, hoi', refreshItem_item_id env bill od oi,
      refreshItem_quantity env bill od oi, refreshItem_price env bill od oi⟩
  · rw [hb1]
  · rw [hb1]
    by_cases hne : od.table_id ≠ bill.table_id
    · simp [htid, hne]
    · push_neg at hne
      simp [htid, hne]
  · intro hst
    rw [hb1]
    by_cases hfin : bill.status = "final"
    · simp [hst, hfin]
    · simp [hst, hfin]



/-- A completed three-item order exercising every branch of the refresh
price chain: `m1` is in the catalog, `m2` is only on the bill, `m3` is only
on the order. -/
def refreshOrder : OrderSnapshot :=
  ⟨"T2", "completed",
    [⟨"m1", "Pasta", 2, some 40⟩, ⟨"m2", "Soup", 1, some 20⟩, ⟨"m3", "Tea", 3, some 5⟩]⟩

/-- Environment for the refresh scenario: order `o9` resolves, and only
menu item `m1` is in the catalog (at an updated price). -/
def refreshEnv : Env :=
  ⟨fun oid => if oid = "o9" then .found refreshOrder else .unavailable,
   fun iid => if iid = "m1" then some ⟨"PastaX", 45⟩ else none⟩

/-- A stale bill for order `o9`: drifted table id, one remembered item. -/
def refreshBill : BillDoc :=
  ⟨"bill-o9", "T1", "o9", "open", "pending", [⟨"m2", "Soup", 25, 1⟩], 25⟩

/-- C8 witness: refreshing the stale bill for order `o9`. -/
theorem force_refresh_rebuilds_witness :
    (force_refresh_from_services refreshEnv [refreshBill] "bill-o9").1.refreshed = true ∧
    (∃ b', ((force_refresh_from_services refreshEnv [refreshBill] "bill-o9").2).find?
        (·.bill_id == "bill-o9") = some b' ∧
      b'.items.map (·.item_id) =
        (refreshOrder.items.filter (·.item_id ≠ "")).map (·.item_id) ∧
      (∀ it ∈ b'.items, ∃ oi ∈ refreshOrder.items, it.item_id = oi.item_id ∧
        it.quantity = oi.quantity ∧
        it.price = refreshPriceSpec refreshEnv refreshBill refreshOrder oi) ∧
      b'.total_amount = (b'.items.map (fun it => it.price * (it.quantity : ℚ))).sum ∧
      b'.table_id = refreshOrder.table_id ∧
      ((refreshOrder.status = "completed" ∨ refreshOrder.status = "delivered") →
        b'.status = "final")) :=
  force_refresh_rebuilds_bill refreshEnv [refreshBill] "bill-o9" refreshBill refreshOrder
    rfl (by decide) rfl (by decide)

end Restaurant
